import Mathlib

/-!
Verification of the Cleanflight input-acquisition layer: the receiver channel
pipeline of `src/main/rx/rx.c` and the timer capture/compare dispatcher of
`src/main/drivers/timer.c`, shallowly embedded in Lean.

Machine integers are modelled as `Nat`/`Int`; wherever C overflow or wrap
semantics matter (`uint32_t` tick arithmetic, the `uint8_t` sample counter)
the reduction modulo `2 ^ 32` or `2 ^ 256` is written out explicitly.
Hardware reads (capture registers, the raw-channel read function, the ADC)
are passed in as explicit values or functions; external side effects that do
not influence the claims (failsafe notifications, interrupt-enable writes)
are not part of the state.
-/

namespace Cleanflight

/-- Reinterpretation of a `uint32_t` value (reduced mod `2 ^ 32`) as a signed
`int32_t`, as the C cast `(int32_t)` does on this platform. -/
def toInt32 (n : ℕ) : ℤ :=
  if n % 2 ^ 32 < 2 ^ 31 then (n % 2 ^ 32 : ℤ) else (n % 2 ^ 32 : ℤ) - 2 ^ 32

/-- 32-bit unsigned subtraction `a - b` as C computes it on `uint32_t`:
the difference modulo `2 ^ 32`. -/
def sub32 (a b : ℕ) : ℕ :=
  (a + (2 ^ 32 - b % 2 ^ 32)) % 2 ^ 32

/-- rx.c `shouldProcessRx` (lines 200-203): process when data arrived or the
50 Hz deadline passed, tested by `(int32_t)(currentTime - rxUpdateAt) >= 0`. -/
def shouldProcessRx (rcDataReceived : Bool) (currentTime rxUpdateAt : ℕ) : Bool :=
  rcDataReceived || decide (0 ≤ toInt32 (sub32 currentTime rxUpdateAt))

/-- rx.c `calculateChannelRemapping` (lines 166-172): indices below the map
entry count read the map, all other indices pass through unchanged. -/
def calculateChannelRemapping (channelMap : List ℕ)
    (channelMapEntryCount channelToRemap : ℕ) : ℕ :=
  if channelToRemap < channelMapEntryCount then channelMap.getD channelToRemap 0
  else channelToRemap

/-- Modelled from the spec: `constrain` lives in common/maths.h, which is not
under src/; the spec describes it as clamping a value into `[low, high]`
("linear rescale of that channel's clamped value"). -/
def constrain (amt low high : ℤ) : ℤ :=
  if amt < low then low else if amt > high then high else amt

/-- rx.c `updateRSSIPWM` (lines 324-333):
`rssi = (uint16_t)((constrain(pwmRssi - 1000, 0, 1000) / 1000.0f) * 1023.0f)`.
The `float` computation is embedded exactly: for `c ∈ [0, 1000]` the two
float32 operations carry a relative error below `2 ^ -22`, while `1023*c/1000`
is an integer only when `1000 ∣ c` (both such cases are exact in float32) and
otherwise lies at distance at least `1/1000` from any integer, so the
truncating `uint16_t` cast of the float result equals `⌊1023 * c / 1000⌋`,
which is the integer division written here. -/
def updateRSSIPWM (pwmRssi : ℤ) : ℤ :=
  constrain (pwmRssi - 1000) 0 1000 * 1023 / 1000

/-- rx.c line 63: `PPM_AND_PWM_SAMPLE_COUNT`, the smoothing window size. -/
def PPM_AND_PWM_SAMPLE_COUNT : ℕ := 4

/-- rx.c line 65: minimum PWM pulse width considered valid. -/
def PULSE_MIN : ℕ := 750

/-- rx.c line 66: maximum PWM pulse width considered valid. -/
def PULSE_MAX : ℕ := 2250

/-- Modelled from the spec: `REMAPPABLE_CHANNEL_COUNT` is declared in rx.h,
which is not under src/; the spec fixes the channel map as derived from the
8-letter string `"AETR1234"`, so the map has 8 entries. -/
def REMAPPABLE_CHANNEL_COUNT : ℕ := 8

/-- One channel's slice of the POLL-mode smoothing state of rx.c: the static
`rcSamples[chan][4]` row, the shared `uint8_t` tick counter `rcSampleIndex`
(line 209) and the shared `rxSamplesCollected` latch (line 215).  The window
slots are a function from slot index; static storage starts zeroed. -/
structure PollChannelState where
  rcSamples : ℕ → ℕ
  rcSampleIndex : ℕ
  rxSamplesCollected : Bool

/-- Zero-initialised static state at startup. -/
def initPollChannelState : PollChannelState :=
  { rcSamples := fun _ => 0, rcSampleIndex := 0, rxSamplesCollected := false }

/-- rx.c `calculateNonDataDrivenChannel` (lines 211-237): store the sample in
the round-robin slot `rcSampleIndex % 4`; before 4 samples were collected
return the raw sample, afterwards the truncated mean of the window (the sum
loop runs over slots 0,1,2,3; values stay far below the `int16_t` range for
validated samples, so plain `Nat` arithmetic is exact). -/
def calculateNonDataDrivenChannel (st : PollChannelState) (sample : ℕ) :
    PollChannelState × ℕ :=
  let currentSampleIndex := st.rcSampleIndex % PPM_AND_PWM_SAMPLE_COUNT
  let rcSamples' := fun i => if i = currentSampleIndex then sample else st.rcSamples i
  if st.rxSamplesCollected = false ∧ st.rcSampleIndex < PPM_AND_PWM_SAMPLE_COUNT then
    ({ st with rcSamples := rcSamples' }, sample)
  else
    ({ st with rcSamples := rcSamples', rxSamplesCollected := true },
      (rcSamples' 0 + rcSamples' 1 + rcSamples' 2 + rcSamples' 3) /
        PPM_AND_PWM_SAMPLE_COUNT)

/-- rx.c `processNonDataDrivenRx` (lines 291-296) restricted to one channel:
the `uint8_t` counter `rcSampleIndex` is incremented (wrapping at 256) before
the channel is recomputed via `processRxChannels`. -/
def processNonDataDrivenTick (st : PollChannelState) (sample : ℕ) :
    PollChannelState × ℕ :=
  calculateNonDataDrivenChannel
    { st with rcSampleIndex := (st.rcSampleIndex + 1) % 256 } sample

/-- Iterate `processNonDataDrivenTick` over successive raw samples, collecting
the published values. -/
def runPollTicks (st : PollChannelState) (samples : List ℕ) :
    PollChannelState × List ℕ :=
  match samples with
  | [] => (st, [])
  | s :: rest =>
    let next := processNonDataDrivenTick st s
    let further := runPollTicks next.1 rest
    (further.1, next.2 :: further.2)

/-- rx.c `processRxChannels` loop body (lines 250-275) for one channel in POLL
mode: remap the logical channel, read the raw sample through the driver
function, substitute the mid-stick value for out-of-window samples, then feed
the result to the smoothing filter.  The failsafe `checkPulse` call is an
external notification with no effect on this state and is omitted. -/
def processRxChannelPoll (rcmap : List ℕ) (midrc : ℕ) (rcReadRawFunc : ℕ → ℕ)
    (chan : ℕ) (st : PollChannelState) : PollChannelState × ℕ :=
  let rawChannel := calculateChannelRemapping rcmap REMAPPABLE_CHANNEL_COUNT chan
  let sample := rcReadRawFunc rawChannel
  let sample := if sample < PULSE_MIN ∨ PULSE_MAX < sample then midrc else sample
  calculateNonDataDrivenChannel st sample

/-- C5: the due test `(int32_t)(now - deadline) >= 0` used by
`shouldProcessRx` returns true exactly when the elapsed time
`(now - deadline) mod 2 ^ 32` is below `2 ^ 31`; `sub32` is that modular
elapsed time. -/
theorem shouldProcessRx_due_iff_elapsed_lt (now deadline : ℕ)
    (hn : now < 2 ^ 32) (hd : deadline < 2 ^ 32) :
    (shouldProcessRx false now deadline = true ↔ sub32 now deadline < 2 ^ 31) ∧
    sub32 now deadline = (now + 2 ^ 32 - deadline) % 2 ^ 32 := by
  unfold shouldProcessRx sub32 toInt32
  constructor
  · simp only [Bool.false_or, decide_eq_true_eq]
    split <;> omega
  · omega

/-- Witness for C5: `now = 100` sits just past a `2 ^ 32` wrap while the
deadline `2 ^ 32 - 50` was set just before it; the signed-difference test
still reports due. -/
theorem shouldProcessRx_due_iff_elapsed_lt_witness :
    (100 : ℕ) < 2 ^ 32 ∧ (2 ^ 32 - 50 : ℕ) < 2 ^ 32 ∧
    (shouldProcessRx false 100 (2 ^ 32 - 50) = true ↔
      sub32 100 (2 ^ 32 - 50) < 2 ^ 31) ∧
    shouldProcessRx false 100 (2 ^ 32 - 50) = true :=
  ⟨by norm_num, by norm_num,
    (shouldProcessRx_due_iff_elapsed_lt 100 (2 ^ 32 - 50)
      (by norm_num) (by norm_num)).1,
    by decide⟩

/-- C6: for a map with at least `channelMapEntryCount` entries, remapping a
logical index below the count returns the table entry at that index, and any
other index returns itself unchanged, whatever the table holds. -/
theorem calculateChannelRemapping_spec (channelMap : List ℕ)
    (channelMapEntryCount channelToRemap : ℕ)
    (hlen : channelMapEntryCount ≤ channelMap.length) :
    (∀ h : channelToRemap < channelMapEntryCount,
      calculateChannelRemapping channelMap channelMapEntryCount channelToRemap =
        channelMap.get ⟨channelToRemap, lt_of_lt_of_le h hlen⟩) ∧
    (channelMapEntryCount ≤ channelToRemap →
      calculateChannelRemapping channelMap channelMapEntryCount channelToRemap =
        channelToRemap) := by
  constructor
  · intro h
    have hl : channelToRemap < channelMap.length := lt_of_lt_of_le h hlen
    simp [calculateChannelRemapping, h, List.getD_eq_getElem?_getD,
      List.getElem?_eq_getElem hl]
  · intro h
    simp [calculateChannelRemapping, Nat.not_lt.mpr h]

/-- Witness for C6: a concrete 4-entry map, one in-range index, one past the
entry count. -/
theorem calculateChannelRemapping_spec_witness :
    calculateChannelRemapping [3, 2, 1, 0] 4 1 = 2 ∧
    calculateChannelRemapping [3, 2, 1, 0] 4 9 = 9 :=
  ⟨(calculateChannelRemapping_spec [3, 2, 1, 0] 4 1 (by norm_num)).1 (by norm_num),
   (calculateChannelRemapping_spec [3, 2, 1, 0] 4 9 (by norm_num)).2 (by norm_num)⟩

/-- C7: `updateRSSIPWM` computes `⌊constrain(v - 1000, 0, 1000) / 1000 * 1023⌋`
(truncation towards zero coincides with the floor on this nonnegative value);
in particular 1500 maps to 511, every `v ≤ 1000` to 0, and every `v ≥ 2000`
to 1023. -/
theorem updateRSSIPWM_spec :
    (∀ v : ℤ, updateRSSIPWM v =
      ⌊((constrain (v - 1000) 0 1000 : ℤ) : ℚ) / 1000 * 1023⌋) ∧
    updateRSSIPWM 1500 = 511 ∧
    (∀ v : ℤ, v ≤ 1000 → updateRSSIPWM v = 0) ∧
    (∀ v : ℤ, 2000 ≤ v → updateRSSIPWM v = 1023) := by
  refine ⟨?_, by decide, ?_, ?_⟩
  · intro v
    have h : ((constrain (v - 1000) 0 1000 : ℤ) : ℚ) / 1000 * 1023 =
        ((constrain (v - 1000) 0 1000 * 1023 : ℤ) : ℚ) / ((1000 : ℕ) : ℚ) := by
      push_cast
      ring
    rw [h, Rat.floor_intCast_div_natCast]
    rfl
  · intro v hv
    have hc : constrain (v - 1000) 0 1000 = 0 := by
      unfold constrain
      split
      · rfl
      · split <;> omega
    unfold updateRSSIPWM
    rw [hc]
    decide
  · intro v hv
    have hc : constrain (v - 1000) 0 1000 = 1000 := by
      unfold constrain
      split
      · omega
      · split <;> omega
    unfold updateRSSIPWM
    rw [hc]
    decide

/-- Witness for C7: the three anchor values of the claim evaluated through the
theorem. -/
theorem updateRSSIPWM_spec_witness :
    updateRSSIPWM 1500 = 511 ∧ updateRSSIPWM 900 = 0 ∧
    updateRSSIPWM 2100 = 1023 :=
  ⟨updateRSSIPWM_spec.2.1,
   updateRSSIPWM_spec.2.2.1 900 (by norm_num),
   updateRSSIPWM_spec.2.2.2 2100 (by norm_num)⟩

/-- C2: feeding validated samples `s0..s4` on five successive POLL ticks from
startup, the first three ticks publish the raw samples unchanged, the fourth
tick publishes the truncated mean of `s0..s3`, and the fifth tick overwrites
the round-robin slot holding `s0` and publishes the truncated mean of
`s4, s1, s2, s3`. -/
theorem pollSmoothing_five_ticks (s0 s1 s2 s3 s4 : ℕ)
    (hv : ∀ s ∈ [s0, s1, s2, s3, s4], PULSE_MIN ≤ s ∧ s ≤ PULSE_MAX) :
    (runPollTicks initPollChannelState [s0, s1, s2, s3, s4]).2 =
      [s0, s1, s2, (s0 + s1 + s2 + s3) / 4, (s4 + s1 + s2 + s3) / 4] := by
  simp [runPollTicks, processNonDataDrivenTick, calculateNonDataDrivenChannel,
    initPollChannelState, PPM_AND_PWM_SAMPLE_COUNT]
  omega

/-- Witness for C2: a concrete validated sample sequence, with the published
values fully evaluated. -/
theorem pollSmoothing_five_ticks_witness :
    (runPollTicks initPollChannelState [1000, 1100, 1200, 1300, 1500]).2 =
      [1000, 1100, 1200, (1000 + 1100 + 1200 + 1300) / 4,
        (1500 + 1100 + 1200 + 1300) / 4] ∧
    (runPollTicks initPollChannelState [1000, 1100, 1200, 1300, 1500]).2 =
      [1000, 1100, 1200, 1150, 1275] :=
  ⟨pollSmoothing_five_ticks 1000 1100 1200 1300 1500 (by decide), by decide⟩

/-- C3: in the POLL-mode per-channel step, a raw sample outside
`[PULSE_MIN, PULSE_MAX]` is replaced by the configured mid-stick value before
it is stored in the smoothing window: the slot written this tick holds the
mid-stick value in that case, every slot written is always inside the valid
window (given an in-window mid-stick configuration), and the other three
slots are untouched. -/
theorem pollValidation_spec (rcmap : List ℕ) (midrc : ℕ) (read : ℕ → ℕ)
    (chan : ℕ) (st : PollChannelState)
    (hmid : PULSE_MIN ≤ midrc ∧ midrc ≤ PULSE_MAX) :
    (read (calculateChannelRemapping rcmap REMAPPABLE_CHANNEL_COUNT chan) < PULSE_MIN ∨
        PULSE_MAX < read (calculateChannelRemapping rcmap REMAPPABLE_CHANNEL_COUNT chan) →
      (processRxChannelPoll rcmap midrc read chan st).1.rcSamples
        (st.rcSampleIndex % PPM_AND_PWM_SAMPLE_COUNT) = midrc) ∧
    (PULSE_MIN ≤ (processRxChannelPoll rcmap midrc read chan st).1.rcSamples
        (st.rcSampleIndex % PPM_AND_PWM_SAMPLE_COUNT) ∨
      (processRxChannelPoll rcmap midrc read chan st).1.rcSamples
          (st.rcSampleIndex % PPM_AND_PWM_SAMPLE_COUNT) =
        read (calculateChannelRemapping rcmap REMAPPABLE_CHANNEL_COUNT chan)) ∧
    (PULSE_MIN ≤ (processRxChannelPoll rcmap midrc read chan st).1.rcSamples
        (st.rcSampleIndex % PPM_AND_PWM_SAMPLE_COUNT) ∧
      (processRxChannelPoll rcmap midrc read chan st).1.rcSamples
        (st.rcSampleIndex % PPM_AND_PWM_SAMPLE_COUNT) ≤ PULSE_MAX) ∧
    (∀ i, i ≠ st.rcSampleIndex % PPM_AND_PWM_SAMPLE_COUNT →
      (processRxChannelPoll rcmap midrc read chan st).1.rcSamples i =
        st.rcSamples i) := by
  have hsamples : ∀ sample,
      (calculateNonDataDrivenChannel st sample).1.rcSamples =
        fun i => if i = st.rcSampleIndex % PPM_AND_PWM_SAMPLE_COUNT then sample
          else st.rcSamples i := by
    intro sample
    unfold calculateNonDataDrivenChannel
    split <;> rfl
  unfold processRxChannelPoll
  simp only [hsamples, eq_self_iff_true, if_true]
  refine ⟨?_, ?_, ?_, ?_⟩
  · intro hout
    simp only [if_pos hout]
  · by_cases hout : read (calculateChannelRemapping rcmap REMAPPABLE_CHANNEL_COUNT chan) <
        PULSE_MIN ∨
        PULSE_MAX < read (calculateChannelRemapping rcmap REMAPPABLE_CHANNEL_COUNT chan)
    · simp only [if_pos hout]
      exact Or.inl hmid.1
    · simp only [if_neg hout]
      exact Or.inr trivial
  · by_cases hout : read (calculateChannelRemapping rcmap REMAPPABLE_CHANNEL_COUNT chan) <
        PULSE_MIN ∨
        PULSE_MAX < read (calculateChannelRemapping rcmap REMAPPABLE_CHANNEL_COUNT chan)
    · simp only [if_pos hout]
      exact hmid
    · simp only [if_neg hout]
      omega
  · intro i hi
    simp only [if_neg hi]

/-- Witness for C3: an out-of-window pulse of width 300 is replaced by the
mid-stick value 1500 in the written window slot. -/
theorem pollValidation_spec_witness :
    (processRxChannelPoll [] 1500 (fun _ => 300) 0 initPollChannelState).1.rcSamples
      (initPollChannelState.rcSampleIndex % PPM_AND_PWM_SAMPLE_COUNT) = 1500 :=
  (pollValidation_spec [] 1500 (fun _ => 300) 0 initPollChannelState
    (by decide)).1 (by decide)

/-- The PUSH-mode (data-driven) pipeline state of rx.c: the latched
`rcDataReceived` frame flag (line 174) and the published channel array
`rcData` (line 61), as a function from channel index. -/
structure PushState where
  rcDataReceived : Bool
  rcData : ℕ → ℕ

/-- rx.c `updateRx` (lines 178-198) for a serial/MSP receiver: the flag is
cleared and then latched from the active driver's frame-complete indication
(the failsafe reset notification is an external side effect). -/
def updateRx (frameComplete : Bool) (st : PushState) : PushState :=
  { st with rcDataReceived := frameComplete }

/-- rx.c `processRxChannels` (lines 239-276) in PUSH mode (`isRxDataDriven`
true): every channel below the runtime channel count is resampled through the
remap table and the pulse-width validation and published directly, without
the smoothing filter.  The failsafe `checkPulse` notification is external. -/
def processRxChannelsPush (rcmap : List ℕ) (midrc channelCount : ℕ)
    (rcReadRawFunc : ℕ → ℕ) (rcData : ℕ → ℕ) : ℕ → ℕ :=
  fun chan =>
    if chan < channelCount then
      let rawChannel := calculateChannelRemapping rcmap REMAPPABLE_CHANNEL_COUNT chan
      let sample := rcReadRawFunc rawChannel
      if sample < PULSE_MIN ∨ PULSE_MAX < sample then midrc else sample
    else rcData chan

/-- rx.c `processDataDrivenRx` (lines 278-289): without a complete frame this
is a no-op; otherwise the channels are resampled and the frame flag is
cleared (the failsafe reset is external). -/
def processDataDrivenRx (rcmap : List ℕ) (midrc channelCount : ℕ)
    (rcReadRawFunc : ℕ → ℕ) (st : PushState) : PushState :=
  if st.rcDataReceived = false then st
  else
    { rcDataReceived := false,
      rcData := processRxChannelsPush rcmap midrc channelCount rcReadRawFunc st.rcData }

/-- rx.c line 57: `rcChannelLetters = "AERT1234"`. -/
def rcChannelLetters : List Char := ['A', 'E', 'R', 'T', '1', '2', '3', '4']

/-- rx.c `parseRcChannels` (lines 313-322) with the scan position carried
explicitly: each input character found in `rcChannelLetters` by `strchr`
makes the remap-table entry at the letter's index receive the character's
offset from the start of the input; other characters write nothing. -/
def parseRcChannelsAux (input : List Char) (offset : ℕ) (rcmap : ℕ → ℕ) : ℕ → ℕ :=
  match input with
  | [] => rcmap
  | ch :: rest =>
    let rcmap' :=
      if ch ∈ rcChannelLetters then
        fun j => if j = rcChannelLetters.findIdx (· == ch) then offset else rcmap j
      else rcmap
    parseRcChannelsAux rest (offset + 1) rcmap'

/-- rx.c `parseRcChannels`: the scan starts at the beginning of the input. -/
def parseRcChannels (input : List Char) (rcmap : ℕ → ℕ) : ℕ → ℕ :=
  parseRcChannelsAux input 0 rcmap

/-- Counterexample to C4 as stated: with a driver frame holding the raw value
300 the published channel value is the substituted mid-stick value 1500, not
the driver's raw value - the pulse-width validation applies in PUSH mode
too. -/
theorem pushRawEquality_cex :
    (processDataDrivenRx [0, 1, 2, 3, 4, 5, 6, 7] 1500 8 (fun _ => 300)
        { rcDataReceived := true, rcData := fun _ => 1500 }).rcData 0 ≠
      (fun _ => (300 : ℕ))
        (calculateChannelRemapping [0, 1, 2, 3, 4, 5, 6, 7]
          REMAPPABLE_CHANNEL_COUNT 0) := by
  decide

/-- C4 (amended): on the tick where the frame-complete flag is set, every
published channel below the channel count equals the driver's raw value read
at the remapped physical index when that value lies in
`[PULSE_MIN, PULSE_MAX]`, and the configured mid-stick value otherwise; no
smoothing state is involved; the frame flag is cleared, and a further tick
without a new frame resamples nothing. -/
theorem pushFrameProcessing (rcmap : List ℕ) (midrc channelCount : ℕ)
    (read : ℕ → ℕ) (st : PushState) (hrecv : st.rcDataReceived = true) :
    (∀ chan, chan < channelCount →
      (processDataDrivenRx rcmap midrc channelCount read st).rcData chan =
        if read (calculateChannelRemapping rcmap REMAPPABLE_CHANNEL_COUNT chan) <
              PULSE_MIN ∨
            PULSE_MAX <
              read (calculateChannelRemapping rcmap REMAPPABLE_CHANNEL_COUNT chan)
        then midrc
        else read (calculateChannelRemapping rcmap REMAPPABLE_CHANNEL_COUNT chan)) ∧
    (processDataDrivenRx rcmap midrc channelCount read st).rcDataReceived = false ∧
    processDataDrivenRx rcmap midrc channelCount read
        (processDataDrivenRx rcmap midrc channelCount read st) =
      processDataDrivenRx rcmap midrc channelCount read st := by
  refine ⟨?_, ?_, ?_⟩
  · intro chan hchan
    simp [processDataDrivenRx, processRxChannelsPush, hrecv, hchan]
  · simp [processDataDrivenRx, hrecv]
  · simp [processDataDrivenRx, hrecv]

/-- Witness for C4 (amended): a concrete in-range frame is published raw and
the flag ends cleared. -/
theorem pushFrameProcessing_witness :
    (processDataDrivenRx [0, 1, 2, 3, 4, 5, 6, 7] 1500 8 (fun i => 1000 + i)
        { rcDataReceived := true, rcData := fun _ => 0 }).rcDataReceived = false ∧
    (processDataDrivenRx [0, 1, 2, 3, 4, 5, 6, 7] 1500 8 (fun i => 1000 + i)
        { rcDataReceived := true, rcData := fun _ => 0 }).rcData 2 = 1002 :=
  ⟨(pushFrameProcessing [0, 1, 2, 3, 4, 5, 6, 7] 1500 8 (fun i => 1000 + i)
      { rcDataReceived := true, rcData := fun _ => 0 } rfl).2.1, by
    rw [(pushFrameProcessing [0, 1, 2, 3, 4, 5, 6, 7] 1500 8 (fun i => 1000 + i)
      { rcDataReceived := true, rcData := fun _ => 0 } rfl).1 2 (by norm_num)]
    decide⟩

/-- Every letter of `rcChannelLetters` sits at an index below 8, and indexing
back at `findIdx` recovers the letter. -/
theorem rcChannelLetters_mem_spec (ch : Char) (h : ch ∈ rcChannelLetters) :
    rcChannelLetters.findIdx (· == ch) < 8 ∧
    rcChannelLetters.getD (rcChannelLetters.findIdx (· == ch)) ' ' = ch := by
  fin_cases h <;> decide

/-- Invariant behind C10, generalised over the scan position: the final table
entry at `j` is either untouched, or `j` is the index of a letter that occurs
in the input and the entry holds the offset of such an occurrence. -/
theorem parseRcChannelsAux_spec (input : List Char) (offset : ℕ) (rcmap : ℕ → ℕ)
    (j : ℕ) :
    parseRcChannelsAux input offset rcmap j = rcmap j ∨
    (j < 8 ∧ ∃ i, i < input.length ∧
      input.getD i ' ' = rcChannelLetters.getD j ' ' ∧
      parseRcChannelsAux input offset rcmap j = offset + i) := by
  induction input generalizing offset rcmap with
  | nil => exact Or.inl rfl
  | cons ch rest ih =>
    have hstep : parseRcChannelsAux (ch :: rest) offset rcmap =
        parseRcChannelsAux rest (offset + 1)
          (if ch ∈ rcChannelLetters then
            fun j' => if j' = rcChannelLetters.findIdx (· == ch) then offset
              else rcmap j'
          else rcmap) := rfl
    rw [hstep]
    rcases ih (offset + 1)
        (if ch ∈ rcChannelLetters then
          fun j' => if j' = rcChannelLetters.findIdx (· == ch) then offset
            else rcmap j'
        else rcmap) with h | ⟨hj8, i, hi, hgetd, heq⟩
    · rw [h]
      by_cases hch : ch ∈ rcChannelLetters
      · by_cases hj : j = rcChannelLetters.findIdx (· == ch)
        · right
          refine ⟨?_, 0, by simp, ?_, ?_⟩
          · rw [hj]
            exact (rcChannelLetters_mem_spec ch hch).1
          · rw [hj]
            simpa using ((rcChannelLetters_mem_spec ch hch).2).symm
          · simp [hch, hj]
        · left
          simp [hch, hj]
      · left
        simp [hch]
    · right
      refine ⟨hj8, i + 1, by simpa using hi, by simpa using hgetd, by omega⟩

/-- C10: for every input string, parsing the channel map either leaves a
remap-table entry unchanged, or the entry index is below 8, its letter (the
entry's position within "AERT1234") occurs in the input, and the stored value
is the offset of such an occurrence; in particular entries at index 8 or
above, entries of letters that do not occur, and inputs of unrecognised
characters cause no change. -/
theorem parseRcChannels_spec (input : List Char) (rcmap : ℕ → ℕ) (j : ℕ) :
    parseRcChannels input rcmap j = rcmap j ∨
    (j < 8 ∧ ∃ i, i < input.length ∧
      input.getD i ' ' = rcChannelLetters.getD j ' ' ∧
      parseRcChannels input rcmap j = i) := by
  have h := parseRcChannelsAux_spec input 0 rcmap j
  simpa [parseRcChannels] using h

/-- rx.c line 68: the 50 Hz refresh period in microseconds. -/
def DELAY_50_HZ : ℕ := 20000

/-- rx.c line 335: the 16-slot ADC RSSI window size. -/
def RSSI_ADC_SAMPLE_COUNT : ℕ := 16

/-- The static state of rx.c `updateRSSIADC` (lines 338-366) together with the
published `rssi` scalar (line 59): the 16-slot `uint8_t` sample window, its
round-robin index, and the next refresh deadline.  Static storage starts
zeroed. -/
structure RssiAdcState where
  adcRssiSamples : ℕ → ℕ
  adcRssiSampleIndex : ℕ
  rssiUpdateAt : ℕ
  rssi : ℤ

/-- Zero-initialised static state at startup. -/
def initRssiAdcState : RssiAdcState :=
  { adcRssiSamples := fun _ => 0, adcRssiSampleIndex := 0,
    rssiUpdateAt := 0, rssi := 0 }

/-- rx.c `updateRSSIADC` (lines 338-366): outside the 50 Hz window the call
returns with no change; otherwise the next deadline is armed, the converted
percentage (`adcGetChannel(ADC_RSSI) / RSSI_SCALE`, an external hardware
sample passed in here already converted) is stored in round-robin slot
`(index + 1) % 16`, the window is summed over slots 0..15 and divided by 16
with `int16_t` truncating division (exact in `Nat` for these nonnegative
values), and the result is rescaled.  The float rescale
`(constrain(mean, 0, 100) / 100.0f) * 1023.0f` under the truncating
`uint16_t` cast is embedded exactly as the integer division
`constrain(mean, 0, 100) * 1023 / 100` by the same exactness argument as for
`updateRSSIPWM`. -/
def updateRSSIADC (currentTime : ℕ) (rssiPercentage : ℕ) (st : RssiAdcState) :
    RssiAdcState :=
  if toInt32 (sub32 currentTime st.rssiUpdateAt) < 0 then st
  else
    let adcRssiSampleIndex := (st.adcRssiSampleIndex + 1) % RSSI_ADC_SAMPLE_COUNT
    let adcRssiSamples := fun i =>
      if i = adcRssiSampleIndex then rssiPercentage else st.adcRssiSamples i
    let adcRssiMean :=
      ((List.range RSSI_ADC_SAMPLE_COUNT).foldl
        (fun acc i => acc + adcRssiSamples i) 0) / RSSI_ADC_SAMPLE_COUNT
    { adcRssiSamples := adcRssiSamples,
      adcRssiSampleIndex := adcRssiSampleIndex,
      rssiUpdateAt := (currentTime + DELAY_50_HZ) % 2 ^ 32,
      rssi := constrain (adcRssiMean : ℤ) 0 100 * 1023 / 100 }

/-- Run `updateRSSIADC` over a list of `(currentTime, rssiPercentage)`
events. -/
def runRssiAdc (st : RssiAdcState) (events : List (ℕ × ℕ)) : RssiAdcState :=
  events.foldl (fun s e => updateRSSIADC e.1 e.2 s) st

set_option maxRecDepth 40000 in
/-- C8: sixteen 50 Hz-spaced updates from startup, carrying the sixteen
constant percentage-50 samples in any arrival order, are all accepted by the
time gate, fill all sixteen window slots with 50, and leave the published
RSSI at 511. -/
theorem rssiAdc_sixteen_constant_samples (ps : List ℕ)
    (hperm : ps.Perm (List.replicate 16 50)) :
    (runRssiAdc initRssiAdcState
        (((List.range 16).map (fun k => 20000 * k)).zip ps)).rssi = 511 ∧
    (∀ i < 16, (runRssiAdc initRssiAdcState
        (((List.range 16).map (fun k => 20000 * k)).zip ps)).adcRssiSamples i = 50) := by
  have hps : ps = List.replicate 16 50 := by
    refine List.eq_replicate_iff.mpr ⟨by simpa using hperm.length_eq, ?_⟩
    intro b hb
    exact List.eq_of_mem_replicate (hperm.mem_iff.mp hb)
  subst hps
  constructor
  · decide
  · decide

/-- Witness for C8: the in-order arrival of the sixteen constant samples. -/
theorem rssiAdc_sixteen_constant_samples_witness :
    (runRssiAdc initRssiAdcState
        (((List.range 16).map (fun k => 20000 * k)).zip
          (List.replicate 16 50))).rssi = 511 :=
  (rssiAdc_sixteen_constant_samples (List.replicate 16 50) (List.Perm.refl _)).1

/-- timer.c line 88 (STM32F10X/Naze32 target): `MAX_TIMERS`, TIM1..TIM4. -/
def MAX_TIMERS : ℕ := 4

/-- timer.c line 224: `CC_CHANNELS_PER_TIMER`, TIM_Channel_1..4. -/
def CC_CHANNELS_PER_TIMER : ℕ := 4

/-- timer.c lines 90-92: the `timers` array {TIM1, TIM2, TIM3, TIM4}.  The
peripheral base addresses are distinct opaque identities, modelled by the
tags 1..4. -/
def timers : List ℕ := [1, 2, 3, 4]

/-- timer.c lines 225-227: the `channels` array holding the ST library values
TIM_Channel_1 = 0x0, TIM_Channel_2 = 0x4, TIM_Channel_3 = 0x8,
TIM_Channel_4 = 0xC. -/
def channels : List ℕ := [0, 4, 8, 12]

/-- timer.c `timerConfig_t` (lines 229-235) without the redundant `tim` back
pointer never read by the dispatcher; the callback function pointers are
opaque identities, `none` modelling NULL. -/
structure TimerConfigEntry where
  edgeCallback : Option ℕ
  overflowCallback : Option ℕ
  channel : ℕ
  reference : ℕ
deriving DecidableEq

/-- timer.c `lookupTimerIndex` (lines 239-246): linear scan of `timers` for
the peripheral.  When the peripheral is absent the C loop walks past the
array; the scan's miss is modelled as the first index past it (`findIdx`
returns the list length), the least value any terminating run of the loop
can produce. -/
def lookupTimerIndex (tim : ℕ) : ℕ := timers.findIdx (· == tim)

/-- timer.c `lookupChannelIndex` (lines 248-255): linear scan of `channels`,
with the same miss convention as `lookupTimerIndex`. -/
def lookupChannelIndex (channel : ℕ) : ℕ := channels.findIdx (· == channel)

/-- timer.c `lookupTimerConfigIndex` (lines 257-260):
`timerIndex + MAX_TIMERS * channelIndex`. -/
def lookupTimerConfigIndex (tim : ℕ) (channel : ℕ) : ℕ :=
  lookupTimerIndex tim + MAX_TIMERS * lookupChannelIndex channel

/-- timer.c `configureTimerChannelCallbacks` (lines 267-281): bound-check the
computed slot index, then overwrite the slot's four fields (the
`assert_param` macro is compiled out on this target; the interrupt-enable
side effects live in the callers). -/
def configureTimerChannelCallbacks (cfg : ℕ → TimerConfigEntry)
    (tim channel reference : ℕ)
    (edgeCallback overflowCallback : Option ℕ) : ℕ → TimerConfigEntry :=
  if lookupTimerConfigIndex tim channel ≥ MAX_TIMERS * CC_CHANNELS_PER_TIMER then
    cfg
  else fun i =>
    if i = lookupTimerConfigIndex tim channel then
      { edgeCallback := edgeCallback, overflowCallback := overflowCallback,
        channel := channel, reference := reference }
    else cfg i

/-- timer.c `findTimerConfig` (lines 345-349). -/
def findTimerConfig (cfg : ℕ → TimerConfigEntry) (tim channel : ℕ) :
    TimerConfigEntry :=
  cfg (lookupTimerConfigIndex tim channel)

/-- The hardware observation one interrupt entry makes of a timer peripheral:
the pending update/overflow flag, the capture-compare pending flag and the
capture register CCR1..CCR4 for each channel index, and the auto-reload
register. -/
structure TimerHwState where
  updatePending : Bool
  ccPending : ℕ → Bool
  captures : ℕ → ℕ
  arr : ℕ

/-- The edge-event half of timer.c `timCCxHandler` (lines 373-404): for each
channel index 0..3 in order, if that channel's capture-compare flag is
pending the flag is cleared, the slot for `(tim, channel)` is looked up, that
channel's own capture register is read, and the registered edge callback (if
any) is invoked with the registration's reference and the captured value.
The result lists the `(callback, reference, capture)` invocations in order. -/
def timCCxEdgeInvocations (cfg : ℕ → TimerConfigEntry) (tim : ℕ)
    (hw : TimerHwState) : List (ℕ × ℕ × ℕ) :=
  (List.range CC_CHANNELS_PER_TIMER).filterMap fun channelIndex =>
    if hw.ccPending channelIndex then
      match (findTimerConfig cfg tim (channels.getD channelIndex 0)).edgeCallback with
      | none => none
      | some cb =>
        some (cb,
          (findTimerConfig cfg tim (channels.getD channelIndex 0)).reference,
          hw.captures channelIndex)
    else none

/-- The overflow half of timer.c `timCCxHandler` (lines 358-371): a pending
update event invokes every registered overflow callback of the peripheral's
four slots with the auto-reload value. -/
def timCCxOverflowInvocations (cfg : ℕ → TimerConfigEntry) (tim : ℕ)
    (hw : TimerHwState) : List (ℕ × ℕ × ℕ) :=
  if hw.updatePending then
    (List.range CC_CHANNELS_PER_TIMER).filterMap fun channelIndex =>
      match (findTimerConfig cfg tim (channels.getD channelIndex 0)).overflowCallback with
      | none => none
      | some cb =>
        some (cb,
          (findTimerConfig cfg tim (channels.getD channelIndex 0)).reference,
          hw.arr)
  else []

/-- timer.c `timCCxHandler` (lines 351-405): overflow callbacks are serviced
before edge callbacks within one interrupt entry. -/
def timCCxHandler (cfg : ℕ → TimerConfigEntry) (tim : ℕ)
    (hw : TimerHwState) : List (ℕ × ℕ × ℕ) :=
  timCCxOverflowInvocations cfg tim hw ++ timCCxEdgeInvocations cfg tim hw

/-- A peripheral listed in `timers` is found at an index below `MAX_TIMERS`. -/
theorem lookupTimerIndex_lt (tim : ℕ) (h : tim ∈ timers) :
    lookupTimerIndex tim < MAX_TIMERS := by
  fin_cases h <;> decide

/-- A channel value listed in `channels` is found at an index below
`CC_CHANNELS_PER_TIMER`, and indexing back recovers the value. -/
theorem lookupChannelIndex_lt (ch : ℕ) (h : ch ∈ channels) :
    lookupChannelIndex ch < CC_CHANNELS_PER_TIMER ∧
    channels.getD (lookupChannelIndex ch) 0 = ch := by
  fin_cases h <;> decide

/-- Indexing `channels` at `j < 4` and scanning back yields `j`. -/
theorem lookupChannelIndex_getD (j : ℕ) (hj : j < CC_CHANNELS_PER_TIMER) :
    lookupChannelIndex (channels.getD j 0) = j := by
  have hj4 : j < 4 := hj
  interval_cases j <;> decide

/-- Distinct peripherals of `timers` occupy distinct scan indices. -/
theorem lookupTimerIndex_inj (t t' : ℕ) (h : t ∈ timers) (h' : t' ∈ timers)
    (hne : t ≠ t') : lookupTimerIndex t ≠ lookupTimerIndex t' := by
  fin_cases h <;> fin_cases h' <;> first
  | exact absurd rfl hne
  | decide

/-- C1: registering an edge callback for a valid `(timer, channel)` pair and
then servicing a pending capture-compare event on that pair invokes exactly
that callback, with the registered reference and that channel's own capture
register value; the registration leaves every other pair's slot untouched;
every edge invocation the handler emits is drawn from the slot keyed to its
own `(timer, channelIndex)` pair; and the slot index function
`timerIndex + MAX_TIMERS * channelIndex` is injective over valid pairs. -/
theorem timerEdgeDispatch (cfg : ℕ → TimerConfigEntry)
    (tim ch reference cb : ℕ) (ovf : Option ℕ) (hw : TimerHwState)
    (htim : tim ∈ timers) (hch : ch ∈ channels) :
    (hw.ccPending (lookupChannelIndex ch) = true →
      (cb, reference, hw.captures (lookupChannelIndex ch)) ∈
        timCCxEdgeInvocations
          (configureTimerChannelCallbacks cfg tim ch reference (some cb) ovf)
          tim hw) ∧
    (∀ tim', tim' ∈ timers → ∀ j, j < CC_CHANNELS_PER_TIMER →
      tim' ≠ tim ∨ j ≠ lookupChannelIndex ch →
      findTimerConfig
          (configureTimerChannelCallbacks cfg tim ch reference (some cb) ovf)
          tim' (channels.getD j 0) =
        findTimerConfig cfg tim' (channels.getD j 0)) ∧
    (∀ cfg' : ℕ → TimerConfigEntry, ∀ inv ∈ timCCxEdgeInvocations cfg' tim hw,
      ∃ j, j < CC_CHANNELS_PER_TIMER ∧ hw.ccPending j = true ∧
        (findTimerConfig cfg' tim (channels.getD j 0)).edgeCallback =
          some inv.1 ∧
        (findTimerConfig cfg' tim (channels.getD j 0)).reference = inv.2.1 ∧
        inv.2.2 = hw.captures j) ∧
    (∀ t1 c1 t2 c2, t1 < MAX_TIMERS → c1 < CC_CHANNELS_PER_TIMER →
      t2 < MAX_TIMERS → c2 < CC_CHANNELS_PER_TIMER →
      t1 + MAX_TIMERS * c1 = t2 + MAX_TIMERS * c2 → t1 = t2 ∧ c1 = c2) := by
  have hti : lookupTimerIndex tim < 4 := lookupTimerIndex_lt tim htim
  have hci := lookupChannelIndex_lt ch hch
  have hci1 : lookupChannelIndex ch < 4 := hci.1
  have hguard : ¬ lookupTimerConfigIndex tim ch ≥
      MAX_TIMERS * CC_CHANNELS_PER_TIMER := by
    unfold lookupTimerConfigIndex
    simp only [MAX_TIMERS, CC_CHANNELS_PER_TIMER]
    omega
  have hwrite : findTimerConfig
      (configureTimerChannelCallbacks cfg tim ch reference (some cb) ovf)
      tim ch =
      { edgeCallback := some cb, overflowCallback := ovf,
        channel := ch, reference := reference } := by
    unfold findTimerConfig configureTimerChannelCallbacks
    rw [if_neg hguard]
    simp
  refine ⟨?_, ?_, ?_, ?_⟩
  · intro hpend
    rw [timCCxEdgeInvocations, List.mem_filterMap]
    refine ⟨lookupChannelIndex ch, List.mem_range.mpr hci.1, ?_⟩
    simp only [if_pos hpend, hci.2, hwrite]
  · intro tim' htim' j hj hne
    have hne' : lookupTimerConfigIndex tim' (channels.getD j 0) ≠
        lookupTimerConfigIndex tim ch := by
      have h1 : lookupTimerIndex tim' < 4 := lookupTimerIndex_lt tim' htim'
      have h2 : lookupChannelIndex (channels.getD j 0) = j :=
        lookupChannelIndex_getD j hj
      have hj4 : j < 4 := hj
      unfold lookupTimerConfigIndex
      simp only [MAX_TIMERS]
      rw [h2]
      rcases hne with hne | hne
      · have h5 := lookupTimerIndex_inj tim' tim htim' htim hne
        omega
      · omega
    unfold findTimerConfig configureTimerChannelCallbacks
    rw [if_neg hguard]
    simp only [if_neg hne']
  · intro cfg' inv hinv
    rw [timCCxEdgeInvocations, List.mem_filterMap] at hinv
    obtain ⟨j, hjr, hj⟩ := hinv
    by_cases hpend : hw.ccPending j = true
    · rw [if_pos hpend] at hj
      cases hcb : (findTimerConfig cfg' tim (channels.getD j 0)).edgeCallback with
      | none =>
        rw [hcb] at hj
        exact absurd hj (by simp)
      | some cb' =>
        rw [hcb] at hj
        injection hj with hj'
        subst hj'
        exact ⟨j, List.mem_range.mp hjr, hpend, hcb, rfl, rfl⟩
    · rw [if_neg hpend] at hj
      exact absurd hj (by simp)
  · simp only [MAX_TIMERS, CC_CHANNELS_PER_TIMER]
    omega

/-- The all-NULL registration table produced by `timerInit`'s `memset`
(timer.c line 451). -/
def emptyTimerConfig : ℕ → TimerConfigEntry :=
  fun _ => { edgeCallback := none, overflowCallback := none, channel := 0, reference := 0 }

/-- A concrete hardware observation: only channel index 2 has a pending
capture-compare event, its capture register reads 42. -/
def hwOnlyChannel2 : TimerHwState :=
  { updatePending := false, ccPending := fun j => j == 2, captures := fun _ => 42, arr := 0 }

/-- Witness for C1: registering callback 5 with reference 7 for
(TIM2, TIM_Channel_3) on an empty table and servicing a pending event on that
channel with capture value 42 yields the invocation `(5, 7, 42)`. -/
theorem timerEdgeDispatch_witness :
    (5, 7, 42) ∈ timCCxEdgeInvocations
      (configureTimerChannelCallbacks emptyTimerConfig 2 8 7 (some 5) none)
      2 hwOnlyChannel2 :=
  (timerEdgeDispatch emptyTimerConfig 2 8 7 5 none hwOnlyChannel2
    (by decide) (by decide)).1 (by decide)

/-- Counterexample to C9 as stated: registering for the unknown timer unit
tagged 99 (none of TIM1..TIM4) with channel slot TIM_Channel_1 is not a
no-op.  The timer scan misses and yields index 4, the computed slot
`4 + 4 * 0 = 4` passes the bound check, and the registration overwrites
dispatcher slot 4 - the slot of the valid pair (TIM1, TIM_Channel_2). -/
theorem timerRegistrationNoOp_cex :
    (99 : ℕ) ∉ timers ∧
    (0 : ℕ) ∈ channels ∧
    lookupTimerConfigIndex 99 0 = lookupTimerConfigIndex 1 4 ∧
    configureTimerChannelCallbacks emptyTimerConfig 99 0 7 (some 5) none
        (lookupTimerConfigIndex 1 4) ≠
      emptyTimerConfig (lookupTimerConfigIndex 1 4) := by
  refine ⟨by decide, by decide, by decide, ?_⟩
  decide

/-- C9 (amended): a registration whose channel slot is not one of the four
TIM_Channel values is a silent no-op for every timer unit, reference and
table content: the channel scan misses, the computed slot index is at least
`MAX_TIMERS * CC_CHANNELS_PER_TIMER`, the bound check rejects it, and the
whole registration table is left unchanged.  (For an unknown timer unit
combined with a low channel slot the bound check does not fire and another
pair's slot is overwritten - see the counterexample.) -/
theorem timerRegistrationNoOp (cfg : ℕ → TimerConfigEntry)
    (tim ch reference : ℕ) (e o : Option ℕ) (hch : ch ∉ channels) :
    configureTimerChannelCallbacks cfg tim ch reference e o = cfg := by
  have e0 : ((0 : ℕ) == ch) = false :=
    beq_eq_false_iff_ne.mpr fun h => hch (h ▸ (by decide : (0 : ℕ) ∈ channels))
  have e4 : ((4 : ℕ) == ch) = false :=
    beq_eq_false_iff_ne.mpr fun h => hch (h ▸ (by decide : (4 : ℕ) ∈ channels))
  have e8 : ((8 : ℕ) == ch) = false :=
    beq_eq_false_iff_ne.mpr fun h => hch (h ▸ (by decide : (8 : ℕ) ∈ channels))
  have e12 : ((12 : ℕ) == ch) = false :=
    beq_eq_false_iff_ne.mpr fun h => hch (h ▸ (by decide : (12 : ℕ) ∈ channels))
  have hmiss : lookupChannelIndex ch = 4 := by
    unfold lookupChannelIndex channels
    simp [List.findIdx_cons, e0, e4, e8, e12]
  have hguard : lookupTimerConfigIndex tim ch ≥
      MAX_TIMERS * CC_CHANNELS_PER_TIMER := by
    unfold lookupTimerConfigIndex
    rw [hmiss]
    simp only [MAX_TIMERS, CC_CHANNELS_PER_TIMER]
    omega
  unfold configureTimerChannelCallbacks
  rw [if_pos hguard]

/-- Witness for C9 (amended): the unrecognised channel slot value 99 with a
valid timer leaves the table unchanged. -/
theorem timerRegistrationNoOp_witness :
    configureTimerChannelCallbacks emptyTimerConfig 1 99 7 (some 5) none =
      emptyTimerConfig :=
  timerRegistrationNoOp emptyTimerConfig 1 99 7 (some 5) none (by decide)

end Cleanflight
